import Mathlib

/-!
Verification of the task-tracking application core: the task state reducer,
the derived-view projections (filter/sort and calendar bucketing), the
validation module, the timer hook, and the key-value persistence adapter.

The JavaScript source is shallowly embedded: the timeline is modelled by
`Int` (dates at date-only granularity, timestamps as instants on the same
axis), task statuses and action kinds stay the `String`s used by the source,
and the ambient clock reads (`new Date()`, `Date.now()`) and the random part
of id generation are injected through an explicit environment, matching the
spec's requirement that the clock be injectable.  Fallible operations
(`throw`) are modelled with `Except`.
-/

namespace TaskApp

-- Statuses from `constants.js` (`TASK_STATUS`).
namespace TASK_STATUS

def ACTIVE : String := "active"

def COMPLETED : String := "completed"

def OVERDUE : String := "overdue"

end TASK_STATUS

-- Task types from `constants.js` (`TASK_TYPE`).
namespace TASK_TYPE

def ONE_DAY : String := "one-day"

def DATE_RANGE : String := "date-range"

end TASK_TYPE

/-- A task record, after `constants.js` `DEFAULT_TASK` and §3 of the spec.
Dates (`deadline`, `startDate`, `endDate`) are date-only instants on the
`Int` timeline, `none` standing for the source's `null`/absent.  Timestamps
(`createdAt`, `updatedAt`) are instants on the same timeline. -/
structure Task where
  id : String
  title : String
  description : String
  isRepetitive : Bool
  repetitionDays : List String
  allocatedHours : Int
  deadline : Option Int
  taskType : String
  startDate : Option Int
  endDate : Option Int
  elapsedTime : Int
  status : String
  createdAt : Int
  updatedAt : Int
deriving DecidableEq, Repr

/-- The constant `DEFAULT_TASK` from `constants.js` (with `null` timestamps and id
rendered as the neutral values of the embedding). -/
def DEFAULT_TASK : Task :=
  { id := ""
    title := ""
    description := ""
    isRepetitive := false
    repetitionDays := []
    allocatedHours := 0
    deadline := none
    taskType := TASK_TYPE.ONE_DAY
    startDate := none
    endDate := none
    elapsedTime := 0
    status := TASK_STATUS.ACTIVE
    createdAt := 0
    updatedAt := 0 }

instance : Inhabited Task := ⟨DEFAULT_TASK⟩

/-- A partial task object, as appears in action payloads: each field is
present (`some`) or absent (`none`), mirroring a plain JS object literal. -/
structure TaskPatch where
  id : Option String := none
  title : Option String := none
  description : Option String := none
  isRepetitive : Option Bool := none
  repetitionDays : Option (List String) := none
  allocatedHours : Option Int := none
  deadline : Option (Option Int) := none
  taskType : Option String := none
  startDate : Option (Option Int) := none
  endDate : Option (Option Int) := none
  elapsedTime : Option Int := none
  status : Option String := none
  createdAt : Option Int := none
  updatedAt : Option Int := none
deriving DecidableEq, Repr

/-- JS object spread `{...task, ...patch}`: fields present in the patch
override the task's fields. -/
def mergeTask (t : Task) (p : TaskPatch) : Task :=
  { id := p.id.getD t.id
    title := p.title.getD t.title
    description := p.description.getD t.description
    isRepetitive := p.isRepetitive.getD t.isRepetitive
    repetitionDays := p.repetitionDays.getD t.repetitionDays
    allocatedHours := p.allocatedHours.getD t.allocatedHours
    deadline := p.deadline.getD t.deadline
    taskType := p.taskType.getD t.taskType
    startDate := p.startDate.getD t.startDate
    endDate := p.endDate.getD t.endDate
    elapsedTime := p.elapsedTime.getD t.elapsedTime
    status := p.status.getD t.status
    createdAt := p.createdAt.getD t.createdAt
    updatedAt := p.updatedAt.getD t.updatedAt }

/-- The environment of one reducer call: the ambient clock (`now` an
instant, `today` the same clock truncated to midnight as by
`setHours(0,0,0,0)`) and the random suffix consumed by `generateId`. -/
structure Env where
  now : Int
  today : Int
  rand : String
deriving DecidableEq, Repr

/-- Function `generateId` from `taskReducer.js`:
`` `task_${Date.now()}_${Math.random().toString(36).substr(2, 9)}` ``,
with the clock and random part injected. -/
def generateId (env : Env) : String :=
  "task_" ++ toString env.now ++ "_" ++ env.rand

/-- Function `calculateTaskStatus` from `taskReducer.js`.  `today` is the injected
value of `new Date()` after `setHours(0, 0, 0, 0)`. -/
def calculateTaskStatus (today : Int) (task : Task) : String :=
  if task.status = TASK_STATUS.COMPLETED then
    TASK_STATUS.COMPLETED
  else
    match task.deadline with
    | some deadline => if deadline < today then TASK_STATUS.OVERDUE else TASK_STATUS.ACTIVE
    | none => TASK_STATUS.ACTIVE

-- Action type strings from `taskReducer.js` (`TASK_ACTIONS`).
namespace TASK_ACTIONS

def ADD_TASK : String := "ADD_TASK"

def UPDATE_TASK : String := "UPDATE_TASK"

def DELETE_TASK : String := "DELETE_TASK"

def TOGGLE_COMPLETE : String := "TOGGLE_COMPLETE"

def UPDATE_TIMER : String := "UPDATE_TIMER"

def RESET_TIMER : String := "RESET_TIMER"

def SET_TASKS : String := "SET_TASKS"

def CLEAR_ALL_TASKS : String := "CLEAR_ALL_TASKS"

def UPDATE_TASK_STATUS : String := "UPDATE_TASK_STATUS"

end TASK_ACTIONS

/-- The payload of a dispatched action, flattening the fields the reducer
reads from `action.payload`: `id` (absent for bulk actions), a timer value,
the task-field portion (for add/update), and a task list (for `SET_TASKS`). -/
structure Payload where
  id : Option String := none
  elapsedTime : Int := 0
  patch : TaskPatch := {}
  tasks : List Task := []
deriving DecidableEq, Repr

/-- An action: the `type` is an arbitrary string, as in the source, so that
dispatching unknown kinds is expressible. -/
structure Action where
  type : String
  payload : Payload := {}
deriving DecidableEq, Repr

/-- The comparison `task.id === action.payload.id` — a JS strict equality between a task id
(always a string) and a possibly absent payload id. -/
def idMatches (pid : Option String) (tid : String) : Bool :=
  pid = some tid

/-- The `ADD_TASK` case of `taskReducer`: `{...action.payload, id: generateId(),
createdAt: now, updatedAt: now, status: ACTIVE, elapsedTime: 0}`, appended to
the end of the state.  The payload object is rendered by applying its fields
to `DEFAULT_TASK` (fields absent from the payload are the defaults).  The
two `new Date().toISOString()` reads are the single injected `env.now`. -/
def addTaskCase (env : Env) (state : List Task) (payload : Payload) : List Task :=
  let newTask : Task :=
    { mergeTask DEFAULT_TASK payload.patch with
        id := generateId env
        createdAt := env.now
        updatedAt := env.now
        status := TASK_STATUS.ACTIVE
        elapsedTime := 0 }
  state ++ [newTask]

/-- The `UPDATE_TASK` case of `taskReducer`: for the task matching the payload
id, `{...task, ...action.payload, updatedAt: now}` followed by
`updatedTask.status = calculateTaskStatus(updatedTask)`. -/
def updateTaskCase (env : Env) (state : List Task) (payload : Payload) : List Task :=
  state.map fun task =>
    if idMatches payload.id task.id then
      let updatedTask := { mergeTask task payload.patch with updatedAt := env.now }
      { updatedTask with status := calculateTaskStatus env.today updatedTask }
    else
      task

/-- The `DELETE_TASK` case of `taskReducer`:
`state.filter(task => task.id !== action.payload.id)`. -/
def deleteTaskCase (state : List Task) (payload : Payload) : List Task :=
  state.filter fun task => ¬ idMatches payload.id task.id

/-- The `TOGGLE_COMPLETE` case of `taskReducer`: flip the matching task between
`completed` and `active` (the new status is not recomputed from the
deadline), refreshing `updatedAt`. -/
def toggleCompleteCase (env : Env) (state : List Task) (payload : Payload) : List Task :=
  state.map fun task =>
    if idMatches payload.id task.id then
      let newStatus :=
        if task.status = TASK_STATUS.COMPLETED then TASK_STATUS.ACTIVE
        else TASK_STATUS.COMPLETED
      { task with status := newStatus, updatedAt := env.now }
    else
      task

/-- The `UPDATE_TIMER` case of `taskReducer`: set the matching task's
`elapsedTime` to `action.payload.elapsedTime`, refreshing `updatedAt`. -/
def updateTimerCase (env : Env) (state : List Task) (payload : Payload) : List Task :=
  state.map fun task =>
    if idMatches payload.id task.id then
      { task with elapsedTime := payload.elapsedTime, updatedAt := env.now }
    else
      task

/-- The `RESET_TIMER` case of `taskReducer`: set the matching task's
`elapsedTime` to `0`, refreshing `updatedAt`. -/
def resetTimerCase (env : Env) (state : List Task) (payload : Payload) : List Task :=
  state.map fun task =>
    if idMatches payload.id task.id then
      { task with elapsedTime := 0, updatedAt := env.now }
    else
      task

/-- The `UPDATE_TASK_STATUS` case of `taskReducer`: recompute every task's
status with `calculateTaskStatus`, refreshing `updatedAt` only for tasks
whose status actually changed. -/
def updateTaskStatusCase (env : Env) (state : List Task) : List Task :=
  state.map fun task =>
    let newStatus := calculateTaskStatus env.today task
    if task.status ≠ newStatus then
      { task with status := newStatus, updatedAt := env.now }
    else
      task

/-- Function `taskReducer` from `taskReducer.js`: the `switch (action.type)` over the
nine action kinds; the `default` case `throw new Error(...)` is the
`Except.error` branch. -/
def taskReducer (env : Env) (state : List Task) (action : Action) :
    Except String (List Task) :=
  if action.type = TASK_ACTIONS.ADD_TASK then
    .ok (addTaskCase env state action.payload)
  else if action.type = TASK_ACTIONS.UPDATE_TASK then
    .ok (updateTaskCase env state action.payload)
  else if action.type = TASK_ACTIONS.DELETE_TASK then
    .ok (deleteTaskCase state action.payload)
  else if action.type = TASK_ACTIONS.TOGGLE_COMPLETE then
    .ok (toggleCompleteCase env state action.payload)
  else if action.type = TASK_ACTIONS.UPDATE_TIMER then
    .ok (updateTimerCase env state action.payload)
  else if action.type = TASK_ACTIONS.RESET_TIMER then
    .ok (resetTimerCase env state action.payload)
  else if action.type = TASK_ACTIONS.SET_TASKS then
    .ok action.payload.tasks
  else if action.type = TASK_ACTIONS.CLEAR_ALL_TASKS then
    .ok []
  else if action.type = TASK_ACTIONS.UPDATE_TASK_STATUS then
    .ok (updateTaskStatusCase env state)
  else
    .error ("Unhandled action type: " ++ action.type)

/-- The nine supported action kinds, in source order. -/
def knownActionTypes : List String :=
  [TASK_ACTIONS.ADD_TASK, TASK_ACTIONS.UPDATE_TASK, TASK_ACTIONS.DELETE_TASK,
   TASK_ACTIONS.TOGGLE_COMPLETE, TASK_ACTIONS.UPDATE_TIMER, TASK_ACTIONS.RESET_TIMER,
   TASK_ACTIONS.SET_TASKS, TASK_ACTIONS.CLEAR_ALL_TASKS, TASK_ACTIONS.UPDATE_TASK_STATUS]

/-- One fire-and-forget dispatch of a sequence: the caller never consumes a
return value, it re-reads the state afterwards, so a dispatch is the new
state when the reducer succeeds.  (For the known action kinds the error
branch is unreachable.) -/
def dispatch (env : Env) (state : List Task) (action : Action) : List Task :=
  match taskReducer env state action with
  | .ok next => next
  | .error _ => state

/-- Dispatch a sequence of actions, each under its own clock environment. -/
def dispatchAll (state : List Task) (steps : List (Env × Action)) : List Task :=
  steps.foldl (fun s step => dispatch step.1 s step.2) state

/-- The three-way comparator passed to `sort` in `TaskList.jsx`
(`filteredAndSortedTasks`): date subtraction for `createdAt` (newest first)
and `deadline` (soonest first, no-deadline tasks pushed to the end via the
`!a.deadline`/`!b.deadline` branches), `localeCompare` for `title`
(rendered as the lexicographic comparison of the embedding). -/
def taskCompare (sortBy : String) (a b : Task) : Int :=
  if sortBy = "createdAt" then
    b.createdAt - a.createdAt
  else if sortBy = "deadline" then
    if a.deadline.isNone then 1
    else if b.deadline.isNone then -1
    else a.deadline.getD 0 - b.deadline.getD 0
  else if sortBy = "title" then
    if a.title < b.title then -1 else if b.title < a.title then 1 else 0
  else
    0

/-- Split a list into alternating halves, for the merge-sort model of
`Array.prototype.sort`. -/
def splitList : List α → List α × List α
  | [] => ([], [])
  | [a] => ([a], [])
  | a :: b :: l =>
    let p := splitList l
    (a :: p.1, b :: p.2)

theorem splitList_length (l : List α) :
    (splitList l).1.length ≤ l.length ∧ (splitList l).2.length ≤ l.length := by
  induction l using splitList.induct with
  | case1 => simp [splitList]
  | case2 a => simp [splitList]
  | case3 a b l ih =>
    simp only [splitList, List.length_cons]
    omega

/-- Merge two runs: an element of the left run is emitted while it compares
`<= 0` against the head of the right run, which is how a comparator-driven
stable merge sort consumes its comparator. -/
def jsMerge (le : α → α → Bool) : List α → List α → List α
  | [], l => l
  | a :: l, [] => a :: l
  | a :: l, b :: m =>
    if le a b then a :: jsMerge le l (b :: m)
    else b :: jsMerge le (a :: l) m
termination_by l m => l.length + m.length

/-- The model of `Array.prototype.sort(comparator)`: a stable,
comparator-driven merge sort, as required of `sort` by the language
standard and implemented by the engines. -/
def jsMergeSort (le : α → α → Bool) : List α → List α
  | [] => []
  | [a] => [a]
  | a :: b :: l =>
    let p := splitList (a :: b :: l)
    jsMerge le (jsMergeSort le p.1) (jsMergeSort le p.2)
termination_by l => l.length
decreasing_by
  · have h := splitList_length l
    simp only [splitList, List.length_cons]
    omega
  · have h := splitList_length l
    simp only [splitList, List.length_cons]
    omega

/-- Projection `filteredAndSortedTasks` from `TaskList.jsx`: filter by status (unless
the filter is `"all"`), then sort a copy with the comparator. -/
def filteredAndSortedTasks (tasks : List Task) (filterStatus : String)
    (sortBy : String) : List Task :=
  let result :=
    if filterStatus ≠ "all" then tasks.filter (fun task => task.status = filterStatus)
    else tasks
  jsMergeSort (fun a b => taskCompare sortBy a b ≤ 0) result

/-- The ordering the deadline sort is claimed to produce: a task with no
deadline never precedes one with a deadline, and two dated tasks appear in
non-decreasing deadline order. -/
def deadlineOrder (a b : Task) : Prop :=
  (a.deadline = none → b.deadline = none) ∧
  (∀ da db, a.deadline = some da → b.deadline = some db → da ≤ db)

/-- Function `getDayName` from `dateHelpers.js`: the weekday name of a date-only
instant.  The embedding aligns day `0` of the timeline with a Sunday; only
the period-7 structure of the mapping matters to the calendar logic. -/
def getDayName (d : Int) : String :=
  ["sunday", "monday", "tuesday", "wednesday", "thursday", "friday",
   "saturday"].getD (d % 7).toNat ""

/-- The push `map.get(dateKey).push(task)` on a date-keyed bucket map (creating the
bucket first when absent, as the `if (!map.has(dateKey))` lines do). -/
def addToBucket (m : Int → List Task) (k : Int) (t : Task) : Int → List Task :=
  fun k' => if k' = k then m k ++ [t] else m k'

/-- The guarded push `if (!map.get(dateKey).includes(task)) push(task)`. -/
def addToBucketNoDup (m : Int → List Task) (k : Int) (t : Task) : Int → List Task :=
  if t ∈ m k then m else addToBucket m k t

/-- The days visited by `for (let d = new Date(start); d <= end;
d.setDate(d.getDate() + 1))`: the inclusive day range, empty when the start
is past the end. -/
def rangeDays (s e : Int) : List Int :=
  (List.range (e - s + 1).toNat).map (fun i => s + (i : Int))

/-- Rule (a) of `tasksByDate` (`Calendar.jsx`): a task with a truthy
`startDate` is pushed — unguarded — into that day's bucket. -/
def startDateRule (task : Task) (m : Int → List Task) : Int → List Task :=
  match task.startDate with
  | some sd => addToBucket m sd task
  | none => m

/-- Rule (b) of `tasksByDate` (`Calendar.jsx`): a `date-range` task with a
truthy `endDate` is pushed, with the duplicate guard, into every day of the
inclusive range walked by the `for` loop — starting from the epoch
(`new Date(null)`, day `0`) when `startDate` is `null`. -/
def dateRangeRule (task : Task) (m : Int → List Task) : Int → List Task :=
  if task.taskType = TASK_TYPE.DATE_RANGE then
    match task.endDate with
    | some ed =>
      (rangeDays (task.startDate.getD 0) ed).foldl
        (fun acc d => addToBucketNoDup acc d task) m
    | none => m
  else m

/-- Rule (c) of `tasksByDate` (`Calendar.jsx`): a repetitive task with a
non-empty `repetitionDays` is pushed, with the duplicate guard, into every
rendered grid day whose weekday name is selected. -/
def repetitionRule (calendarDays : List Int) (task : Task)
    (m : Int → List Task) : Int → List Task :=
  if task.isRepetitive ∧ 0 < task.repetitionDays.length then
    calendarDays.foldl
      (fun acc day =>
        if getDayName day ∈ task.repetitionDays then addToBucketNoDup acc day task
        else acc)
      m
  else m

/-- The body of the `tasks.forEach` in `tasksByDate` (`Calendar.jsx`): one
task's three contribution rules, applied in source order. -/
def processTask (calendarDays : List Int) (m : Int → List Task) (task : Task) :
    Int → List Task :=
  repetitionRule calendarDays task (dateRangeRule task (startDateRule task m))

/-- Projection `tasksByDate` from `Calendar.jsx`: fold all tasks into the date-keyed
bucket map, starting from the empty map. -/
def tasksByDate (tasks : List Task) (calendarDays : List Int) : Int → List Task :=
  tasks.foldl (processTask calendarDays) (fun _ => [])

-- Validation messages from `constants.js` (`VALIDATION_MESSAGES`).
namespace VALIDATION_MESSAGES

def TITLE_REQUIRED : String := "Task title is required"

def TITLE_MIN_LENGTH : String := "Title must be at least 3 characters"

def DESCRIPTION_MIN_LENGTH : String := "Description must be at least 10 characters"

def HOURS_INVALID : String := "Allocated hours must be greater than 0"

def DEADLINE_INVALID : String := "Deadline must be a future date"

def REPETITION_DAYS_REQUIRED : String := "Please select at least one day for repetitive tasks"

def DATE_RANGE_INVALID : String := "End date must be after start date"

end VALIDATION_MESSAGES

/-- A form-level task object handed to `validateTask`: every field may be
absent, as in the object literals the validators receive. -/
structure FormTask where
  title : Option String := none
  description : Option String := none
  allocatedHours : Option Int := none
  deadline : Option Int := none
  isRepetitive : Option Bool := none
  repetitionDays : Option (List String) := none
  startDate : Option Int := none
  endDate : Option Int := none
deriving DecidableEq, Repr

/-- The string trim `.trim()` of JS: strip whitespace from both ends
(rendered structurally so that concrete instances compute). -/
def jsTrim (s : String) : String :=
  String.mk
    (((s.data.dropWhile Char.isWhitespace).reverse.dropWhile Char.isWhitespace).reverse)

/-- Function `validateTitle` from `validation.js`: absent/blank titles are required,
titles shorter than 3 characters after trim are too short. -/
def validateTitle (title : Option String) : Option String :=
  match title with
  | none => some VALIDATION_MESSAGES.TITLE_REQUIRED
  | some s =>
    if (jsTrim s).length = 0 then some VALIDATION_MESSAGES.TITLE_REQUIRED
    else if (jsTrim s).length < 3 then some VALIDATION_MESSAGES.TITLE_MIN_LENGTH
    else none

/-- Function `validateDescription` from `validation.js`: absent/blank is fine,
otherwise at least 10 characters after trim. -/
def validateDescription (description : Option String) : Option String :=
  match description with
  | none => none
  | some s =>
    if (jsTrim s).length = 0 then none
    else if (jsTrim s).length < 10 then some VALIDATION_MESSAGES.DESCRIPTION_MIN_LENGTH
    else none

/-- Function `validateHours` from `validation.js`: the numeric value must be
positive (the `Number(...)` coercion and its `NaN` case live outside the
numeric embedding). -/
def validateHours (hours : Int) : Option String :=
  if hours ≤ 0 then some VALIDATION_MESSAGES.HOURS_INVALID else none

/-- Function `validateDeadline` from `validation.js`: an absent deadline is fine, a
present one must not be strictly before today's midnight. -/
def validateDeadline (today : Int) (deadline : Option Int) : Option String :=
  match deadline with
  | none => none
  | some d => if d < today then some VALIDATION_MESSAGES.DEADLINE_INVALID else none

/-- Function `validateRepetitionDays` from `validation.js`: only repetitive tasks
are checked, and they need a non-empty day selection. -/
def validateRepetitionDays (isRepetitive : Option Bool)
    (repetitionDays : Option (List String)) : Option String :=
  if isRepetitive = some true then
    match repetitionDays with
    | none => some VALIDATION_MESSAGES.REPETITION_DAYS_REQUIRED
    | some days =>
      if days.length = 0 then some VALIDATION_MESSAGES.REPETITION_DAYS_REQUIRED
      else none
  else none

/-- Function `validateDateRange` from `validation.js`: when both ends are present,
the end must not be before the start. -/
def validateDateRange (startDate endDate : Option Int) : Option String :=
  match startDate, endDate with
  | some s, some e => if e < s then some VALIDATION_MESSAGES.DATE_RANGE_INVALID else none
  | _, _ => none

/-- Function `validateTask` from `validation.js`: compose the field validators into
the field-name→message mapping (an association list in field order; hours
are only validated when `task.allocatedHours` is truthy, so an absent or
zero value is skipped). -/
def validateTask (today : Int) (task : FormTask) : List (String × String) :=
  (match validateTitle task.title with
   | some e => [("title", e)] | none => []) ++
  (match validateDescription task.description with
   | some e => [("description", e)] | none => []) ++
  (match task.allocatedHours with
   | some h =>
     if h = 0 then []
     else match validateHours h with
          | some e => [("allocatedHours", e)] | none => []
   | none => []) ++
  (match validateDeadline today task.deadline with
   | some e => [("deadline", e)] | none => []) ++
  (match validateRepetitionDays task.isRepetitive task.repetitionDays with
   | some e => [("repetitionDays", e)] | none => []) ++
  (match validateDateRange task.startDate task.endDate with
   | some e => [("dateRange", e)] | none => [])

-- Timer states from `constants.js` (`TIMER_STATE`).
namespace TIMER_STATE

def IDLE : String := "idle"

def RUNNING : String := "running"

def PAUSED : String := "paused"

end TIMER_STATE

/-- The state of one `useTimer` hook instance: the `time` and `timerState`
pieces of state, plus whether `intervalRef.current` holds a live interval. -/
structure TimerState where
  time : Int
  timerState : String
  intervalActive : Bool
deriving DecidableEq, Repr

/-- The events a `useTimer` instance reacts to: its three control functions
and the once-per-second firing of its interval callback. -/
inductive TimerEvent where
  | start
  | tick
  | pause
  | reset
deriving DecidableEq, Repr

/-- The hook's state at construction: `useState(initialTime)`,
`useState(TIMER_STATE.IDLE)`, `useRef(null)`. -/
def useTimerInit (initialTime : Int) : TimerState :=
  { time := initialTime, timerState := TIMER_STATE.IDLE, intervalActive := false }

/-- One step of a `useTimer` instance (`usePrevious.js`, `useTimer`):
`start` is a no-op while running, otherwise arms the interval; a `tick` is
the interval callback (`setTime(prev => prev + 1)`), which only fires while
an interval is armed; `pause` is a no-op unless running, otherwise clears
the interval; `reset` clears the interval and restores the construction-time
`initialTime` and the idle state. -/
def timerStep (initialTime : Int) (s : TimerState) : TimerEvent → TimerState
  | .start =>
    if s.timerState = TIMER_STATE.RUNNING then s
    else { s with timerState := TIMER_STATE.RUNNING, intervalActive := true }
  | .tick =>
    if s.intervalActive then { s with time := s.time + 1 } else s
  | .pause =>
    if s.timerState ≠ TIMER_STATE.RUNNING then s
    else { s with timerState := TIMER_STATE.PAUSED, intervalActive := false }
  | .reset =>
    { time := initialTime, timerState := TIMER_STATE.IDLE, intervalActive := false }

/-- Run a `useTimer` instance from construction through a sequence of
events. -/
def runTimer (initialTime : Int) (events : List TimerEvent) : TimerState :=
  events.foldl (timerStep initialTime) (useTimerInit initialTime)

/-- The browser's string key-value store, as an association list. -/
def Store : Type := List (String × String)

/-- The store write `localStorage.setItem`. -/
def setItem (s : Store) (k v : String) : Store :=
  match s with
  | [] => [(k, v)]
  | (k', v') :: rest => if k' = k then (k, v) :: rest else (k', v') :: setItem rest k v

/-- The store read `localStorage.getItem` (`null` when the key is absent). -/
def getItem (s : Store) (k : String) : Option String :=
  match s with
  | [] => none
  | (k', v') :: rest => if k' = k then some v' else getItem rest k

/-- Function `saveToStorage` from `localStorage.js`: stringify, `setItem`, return
`true`; any failure (quota, disabled storage — the `storageOk` flag) is
caught and reported as `false` with the store untouched.  The platform's
`JSON.stringify` is the injected `stringify`. -/
def saveToStorage (stringify : α → String) (storageOk : Bool) (s : Store)
    (key : String) (value : α) : Bool × Store :=
  if storageOk then (true, setItem s key (stringify value)) else (false, s)

/-- Function `loadFromStorage` from `localStorage.js`: an absent key yields the
default, a stored string is parsed — a parse failure (the `catch`) also
yields the default.  The platform's `JSON.parse` is the injected `parse`,
returning `none` where the original throws. -/
def loadFromStorage (parse : String → Option α) (s : Store) (key : String)
    (defaultValue : α) : α :=
  match getItem s key with
  | none => defaultValue
  | some str =>
    match parse str with
    | some v => v
    | none => defaultValue

/-- A concrete completed task with a past deadline, used in concrete
instantiations. -/
def sampleCompletedTask : Task :=
  { DEFAULT_TASK with id := "a", status := TASK_STATUS.COMPLETED, deadline := some (-5) }

/-- A concrete clock environment, used in concrete instantiations. -/
def sampleEnv (n : Int) : Env :=
  { now := n, today := n, rand := "r" }

/-- A concrete repetitive date-range task whose repetition day also falls
inside its own date range, used in concrete instantiations (day 3 of the
timeline is a Wednesday under `getDayName`). -/
def sampleCalendarTask : Task :=
  { DEFAULT_TASK with
      id := "r"
      startDate := some 3
      endDate := some 5
      taskType := TASK_TYPE.DATE_RANGE
      isRepetitive := true
      repetitionDays := ["sunday", "wednesday"] }

/-! ### Reducer branch equations -/

theorem taskReducer_add (env : Env) (state : List Task) (p : Payload) :
    taskReducer env state { type := TASK_ACTIONS.ADD_TASK, payload := p } =
      .ok (addTaskCase env state p) := rfl

theorem taskReducer_update (env : Env) (state : List Task) (p : Payload) :
    taskReducer env state { type := TASK_ACTIONS.UPDATE_TASK, payload := p } =
      .ok (updateTaskCase env state p) := rfl

theorem taskReducer_delete (env : Env) (state : List Task) (p : Payload) :
    taskReducer env state { type := TASK_ACTIONS.DELETE_TASK, payload := p } =
      .ok (deleteTaskCase state p) := rfl

theorem taskReducer_toggle (env : Env) (state : List Task) (p : Payload) :
    taskReducer env state { type := TASK_ACTIONS.TOGGLE_COMPLETE, payload := p } =
      .ok (toggleCompleteCase env state p) := rfl

theorem taskReducer_updateTimer (env : Env) (state : List Task) (p : Payload) :
    taskReducer env state { type := TASK_ACTIONS.UPDATE_TIMER, payload := p } =
      .ok (updateTimerCase env state p) := rfl

theorem taskReducer_resetTimer (env : Env) (state : List Task) (p : Payload) :
    taskReducer env state { type := TASK_ACTIONS.RESET_TIMER, payload := p } =
      .ok (resetTimerCase env state p) := rfl

theorem taskReducer_setTasks (env : Env) (state : List Task) (p : Payload) :
    taskReducer env state { type := TASK_ACTIONS.SET_TASKS, payload := p } =
      .ok p.tasks := rfl

theorem taskReducer_clear (env : Env) (state : List Task) (p : Payload) :
    taskReducer env state { type := TASK_ACTIONS.CLEAR_ALL_TASKS, payload := p } =
      .ok [] := rfl

theorem taskReducer_recompute (env : Env) (state : List Task) (p : Payload) :
    taskReducer env state { type := TASK_ACTIONS.UPDATE_TASK_STATUS, payload := p } =
      .ok (updateTaskStatusCase env state) := rfl

/-! ### Claims -/

/-- C1: for every task, `calculateStatus` returns `completed` when the
task's status is already `completed`; otherwise, if the task has a deadline
strictly before today's midnight it returns `overdue`, and in every other
case (no deadline, or a deadline not before today) it returns `active`. -/
theorem calculateTaskStatus_spec (today : Int) (task : Task) :
    (task.status = TASK_STATUS.COMPLETED →
      calculateTaskStatus today task = TASK_STATUS.COMPLETED) ∧
    (task.status ≠ TASK_STATUS.COMPLETED →
      (∀ d, task.deadline = some d → d < today →
        calculateTaskStatus today task = TASK_STATUS.OVERDUE) ∧
      ((∀ d, task.deadline = some d → ¬ d < today) →
        calculateTaskStatus today task = TASK_STATUS.ACTIVE)) := by
  refine ⟨fun h => ?_, fun h => ⟨fun d hd hlt => ?_, fun hnone => ?_⟩⟩
  · simp [calculateTaskStatus, h]
  · simp [calculateTaskStatus, h, hd, hlt]
  · cases hdl : task.deadline with
    | none => simp [calculateTaskStatus, h, hdl]
    | some d => simp [calculateTaskStatus, h, hdl, hnone d hdl]

theorem calculateTaskStatus_spec_witness :
    calculateTaskStatus 10
        { DEFAULT_TASK with deadline := some 9, status := TASK_STATUS.COMPLETED } =
      TASK_STATUS.COMPLETED ∧
    calculateTaskStatus 10 { DEFAULT_TASK with deadline := some 9 } =
      TASK_STATUS.OVERDUE ∧
    calculateTaskStatus 10 { DEFAULT_TASK with deadline := some 10 } =
      TASK_STATUS.ACTIVE :=
  ⟨(calculateTaskStatus_spec 10 _).1 rfl,
   ((calculateTaskStatus_spec 10 _).2 (by decide)).1 9 rfl (by decide),
   ((calculateTaskStatus_spec 10 _).2 (by decide)).2
     (fun d hd => by
       have h10 : (10 : Int) = d := Option.some.inj hd
       omega)⟩

/-- C3: when the payload's id matches no task in the collection, the
`UPDATE_TASK`, `DELETE_TASK`, `UPDATE_TIMER` and `RESET_TIMER` intents all
return the input collection unchanged, raising no error. -/
theorem lookup_miss_noop (env : Env) (state : List Task) (p : Payload)
    (hmiss : ∀ t ∈ state, p.id ≠ some t.id) :
    taskReducer env state { type := TASK_ACTIONS.UPDATE_TASK, payload := p } = .ok state ∧
    taskReducer env state { type := TASK_ACTIONS.DELETE_TASK, payload := p } = .ok state ∧
    taskReducer env state { type := TASK_ACTIONS.UPDATE_TIMER, payload := p } = .ok state ∧
    taskReducer env state { type := TASK_ACTIONS.RESET_TIMER, payload := p } = .ok state := by
  have hfalse : ∀ t ∈ state, idMatches p.id t.id = false := by
    intro t ht
    simpa [idMatches] using hmiss t ht
  have hmap : ∀ f : Task → Task,
      (∀ t, idMatches p.id t.id = false → f t = t) →
      state.map (fun t => f t) = state := by
    intro f hf
    have : state.map (fun t => f t) = state.map (fun t => t) :=
      List.map_congr_left fun t ht => hf t (hfalse t ht)
    simpa using this
  refine ⟨?_, ?_, ?_, ?_⟩
  · rw [taskReducer_update]
    congr 1
    exact hmap _ fun t ht => by simp [ht]
  · rw [taskReducer_delete]
    congr 1
    unfold deleteTaskCase
    rw [List.filter_eq_self]
    intro t ht
    simp [hfalse t ht]
  · rw [taskReducer_updateTimer]
    congr 1
    exact hmap _ fun t ht => by simp [ht]
  · rw [taskReducer_resetTimer]
    congr 1
    exact hmap _ fun t ht => by simp [ht]

theorem lookup_miss_noop_witness :
    (∀ t ∈ [{ DEFAULT_TASK with id := "a" }], some "b" ≠ some t.id) ∧
    taskReducer { now := 0, today := 0, rand := "r" } [{ DEFAULT_TASK with id := "a" }]
      { type := TASK_ACTIONS.DELETE_TASK, payload := { id := some "b" } } =
      .ok [{ DEFAULT_TASK with id := "a" }] :=
  ⟨by decide,
   (lookup_miss_noop { now := 0, today := 0, rand := "r" }
     [{ DEFAULT_TASK with id := "a" }] { id := some "b" } (by decide)).2.1⟩

/-- C4: the reducer raises an error exactly when the dispatched action's
type is not one of the nine enumerated kinds; every enumerated kind returns
a new collection without raising, on every input collection. -/
theorem taskReducer_error_iff (env : Env) (state : List Task) (action : Action) :
    (∃ msg, taskReducer env state action = .error msg) ↔
      action.type ∉ knownActionTypes := by
  obtain ⟨ty, p⟩ := action
  constructor
  · rintro ⟨msg, hmsg⟩ hmem
    simp only [knownActionTypes, List.mem_cons, List.not_mem_nil, or_false] at hmem
    rcases hmem with h|h|h|h|h|h|h|h|h <;> subst h <;>
      first
      | exact absurd hmsg (by rw [taskReducer_add]; exact fun h => nomatch h)
      | exact absurd hmsg (by rw [taskReducer_update]; exact fun h => nomatch h)
      | exact absurd hmsg (by rw [taskReducer_delete]; exact fun h => nomatch h)
      | exact absurd hmsg (by rw [taskReducer_toggle]; exact fun h => nomatch h)
      | exact absurd hmsg (by rw [taskReducer_updateTimer]; exact fun h => nomatch h)
      | exact absurd hmsg (by rw [taskReducer_resetTimer]; exact fun h => nomatch h)
      | exact absurd hmsg (by rw [taskReducer_setTasks]; exact fun h => nomatch h)
      | exact absurd hmsg (by rw [taskReducer_clear]; exact fun h => nomatch h)
      | exact absurd hmsg (by rw [taskReducer_recompute]; exact fun h => nomatch h)
  · intro hmem
    simp only [knownActionTypes, List.mem_cons, List.not_mem_nil, or_false] at hmem
    push_neg at hmem
    obtain ⟨n1, n2, n3, n4, n5, n6, n7, n8, n9⟩ := hmem
    exact ⟨"Unhandled action type: " ++ ty,
      by simp [taskReducer, n1, n2, n3, n4, n5, n6, n7, n8, n9]⟩

theorem recompute_fixes_completed (env : Env) (t : Task)
    (hc : t.status = TASK_STATUS.COMPLETED) :
    (let newStatus := calculateTaskStatus env.today t
     if t.status ≠ newStatus then
       { t with status := newStatus, updatedAt := env.now }
     else t) = t := by
  simp [calculateTaskStatus, hc]

/-- Stickiness invariant: under any sequence of `UPDATE_TASK_STATUS`
dispatches and `TOGGLE_COMPLETE` dispatches aimed at other ids, a task at
position `i` that is completed stays completed and keeps its id. -/
theorem sticky_aux (x : String) (steps : List (Env × Action)) :
    ∀ (state : List Task) (i : Nat) (hi : i < state.length),
      state[i].status = TASK_STATUS.COMPLETED →
      state[i].id = x →
      (∀ s ∈ steps, s.2.type = TASK_ACTIONS.UPDATE_TASK_STATUS ∨
        (s.2.type = TASK_ACTIONS.TOGGLE_COMPLETE ∧ s.2.payload.id ≠ some x)) →
      ∃ hi' : i < (dispatchAll state steps).length,
        (dispatchAll state steps)[i].status = TASK_STATUS.COMPLETED ∧
        (dispatchAll state steps)[i].id = x := by
  induction steps with
  | nil => exact fun state i hi hc hx _ => ⟨hi, hc, hx⟩
  | cons st rest ih =>
    intro state i hi hc hx hall
    obtain ⟨e, a⟩ := st
    obtain ⟨ty, p⟩ := a
    have hd : dispatchAll state ((e, ⟨ty, p⟩) :: rest) =
        dispatchAll (dispatch e state ⟨ty, p⟩) rest := rfl
    rcases hall (e, ⟨ty, p⟩) (List.mem_cons_self _ _) with h | ⟨h, hpid⟩
    · have hsimp : ty = TASK_ACTIONS.UPDATE_TASK_STATUS := h
      subst hsimp
      have hda : dispatch e state ⟨TASK_ACTIONS.UPDATE_TASK_STATUS, p⟩ =
          updateTaskStatusCase e state := by
        simp [dispatch, taskReducer_recompute]
      rw [hd, hda]
      have hlen : i < (updateTaskStatusCase e state).length := by
        simpa [updateTaskStatusCase] using hi
      have hget : (updateTaskStatusCase e state)[i] = state[i] := by
        simp only [updateTaskStatusCase, List.getElem_map]
        exact recompute_fixes_completed e _ hc
      refine ih (updateTaskStatusCase e state) i hlen ?_ ?_
        (fun s hs => hall s (List.mem_cons_of_mem _ hs))
      · rw [hget]; exact hc
      · rw [hget]; exact hx
    · have hsimp : ty = TASK_ACTIONS.TOGGLE_COMPLETE := h
      subst hsimp
      have hda : dispatch e state ⟨TASK_ACTIONS.TOGGLE_COMPLETE, p⟩ =
          toggleCompleteCase e state p := by
        simp [dispatch, taskReducer_toggle]
      rw [hd, hda]
      have hlen : i < (toggleCompleteCase e state p).length := by
        simpa [toggleCompleteCase] using hi
      have hmatch : idMatches p.id state[i].id = false := by
        simp only [idMatches, decide_eq_false_iff_not]
        rw [hx]
        exact fun hcontra => hpid hcontra
      have hget : (toggleCompleteCase e state p)[i] = state[i] := by
        simp only [toggleCompleteCase, List.getElem_map, hmatch]
        simp
      refine ih (toggleCompleteCase e state p) i hlen ?_ ?_
        (fun s hs => hall s (List.mem_cons_of_mem _ hs))
      · rw [hget]; exact hc
      · rw [hget]; exact hx

/-- C2: a completed task stays completed under any number of
`UPDATE_TASK_STATUS` dispatches (and `TOGGLE_COMPLETE` dispatches aimed at
other ids); dispatching `TOGGLE_COMPLETE` for its id makes it `active`,
regardless of the deadline. -/
theorem completed_stickiness :
    (∀ (steps : List (Env × Action)) (state : List Task) (i : Nat)
      (hi : i < state.length),
      state[i].status = TASK_STATUS.COMPLETED →
      (∀ s ∈ steps, s.2.type = TASK_ACTIONS.UPDATE_TASK_STATUS ∨
        (s.2.type = TASK_ACTIONS.TOGGLE_COMPLETE ∧ s.2.payload.id ≠ some state[i].id)) →
      ∃ hi' : i < (dispatchAll state steps).length,
        (dispatchAll state steps)[i].status = TASK_STATUS.COMPLETED) ∧
    (∀ (env : Env) (state : List Task) (p : Payload) (i : Nat)
      (hi : i < state.length),
      state[i].status = TASK_STATUS.COMPLETED →
      p.id = some state[i].id →
      ∃ hi' : i < (dispatch env state ⟨TASK_ACTIONS.TOGGLE_COMPLETE, p⟩).length,
        (dispatch env state ⟨TASK_ACTIONS.TOGGLE_COMPLETE, p⟩)[i].status =
          TASK_STATUS.ACTIVE) := by
  constructor
  · intro steps state i hi hc hall
    obtain ⟨hi', hst, -⟩ := sticky_aux state[i].id steps state i hi hc rfl hall
    exact ⟨hi', hst⟩
  · intro env state p i hi hc hid
    have hda : dispatch env state ⟨TASK_ACTIONS.TOGGLE_COMPLETE, p⟩ =
        toggleCompleteCase env state p := by
      simp [dispatch, taskReducer_toggle]
    rw [hda]
    have hlen : i < (toggleCompleteCase env state p).length := by
      simpa [toggleCompleteCase] using hi
    refine ⟨hlen, ?_⟩
    have hmatch : idMatches p.id state[i].id = true := by
      simp [idMatches, hid]
    simp only [toggleCompleteCase, List.getElem_map, hmatch]
    simp [hc]

theorem completed_stickiness_witness :
    (∃ hi' : (0 : Nat) <
        (dispatchAll [sampleCompletedTask]
          [(sampleEnv 1, { type := TASK_ACTIONS.UPDATE_TASK_STATUS }),
           (sampleEnv 2, { type := TASK_ACTIONS.UPDATE_TASK_STATUS })]).length,
      (dispatchAll [sampleCompletedTask]
          [(sampleEnv 1, { type := TASK_ACTIONS.UPDATE_TASK_STATUS }),
           (sampleEnv 2, { type := TASK_ACTIONS.UPDATE_TASK_STATUS })])[0].status =
        TASK_STATUS.COMPLETED) ∧
    (∃ hi' : (0 : Nat) <
        (dispatch (sampleEnv 3) [sampleCompletedTask]
          ⟨TASK_ACTIONS.TOGGLE_COMPLETE, { id := some "a" }⟩).length,
      (dispatch (sampleEnv 3) [sampleCompletedTask]
          ⟨TASK_ACTIONS.TOGGLE_COMPLETE, { id := some "a" }⟩)[0].status =
        TASK_STATUS.ACTIVE) :=
  ⟨completed_stickiness.1 _ _ 0 (by decide) (by decide) (by decide),
   completed_stickiness.2 (sampleEnv 3) _ { id := some "a" } 0 (by decide)
     (by decide) (by decide)⟩

theorem getItem_setItem (s : Store) (k v : String) :
    getItem (setItem s k v) k = some v := by
  induction s with
  | nil => simp [setItem, getItem]
  | cons kv rest ih =>
    obtain ⟨k', v'⟩ := kv
    by_cases h : k' = k
    · simp [setItem, getItem, h]
    · simp [setItem, getItem, h, ih]

/-- C9: if a save of a serializable value `X` under a key succeeds, then a
load of that key returns a value equal to `X` — the round trip through the
persistence adapter is lossless, given the platform codec's own round-trip
fidelity (`parse (stringify v) = v`). -/
theorem storage_round_trip {α : Type} (stringify : α → String)
    (parse : String → Option α) (hcodec : ∀ v, parse (stringify v) = some v)
    (storageOk : Bool) (s s' : Store) (key : String) (X d : α)
    (hsave : saveToStorage stringify storageOk s key X = (true, s')) :
    loadFromStorage parse s' key d = X := by
  unfold saveToStorage at hsave
  by_cases hok : storageOk
  · rw [if_pos hok] at hsave
    have hs' : s' = setItem s key (stringify X) := (Prod.mk.injEq _ _ _ _ ▸ hsave).2.symm
    subst hs'
    unfold loadFromStorage
    rw [getItem_setItem]
    simp [hcodec]
  · rw [if_neg hok] at hsave
    simp at hsave

theorem storage_round_trip_witness :
    saveToStorage (fun n => String.mk (List.replicate n 'x')) true []
        "task-tracker-tasks" 3 =
      (true, setItem [] "task-tracker-tasks" (String.mk (List.replicate 3 'x'))) ∧
    loadFromStorage (fun str => some str.data.length)
        (setItem [] "task-tracker-tasks" (String.mk (List.replicate 3 'x')))
        "task-tracker-tasks" 0 = 3 :=
  ⟨rfl,
   storage_round_trip (fun n => String.mk (List.replicate n 'x'))
     (fun str => some str.data.length) (fun v => by simp) true [] _
     "task-tracker-tasks" 3 0 rfl⟩

theorem jsMerge_perm (le : α → α → Bool) (l1 l2 : List α) :
    (jsMerge le l1 l2).Perm (l1 ++ l2) := by
  induction l1, l2 using jsMerge.induct le with
  | case1 l => simp [jsMerge]
  | case2 a l => simp [jsMerge]
  | case3 a l b m hle ih =>
    rw [jsMerge, if_pos hle]
    exact List.Perm.cons a ih
  | case4 a l b m hle ih =>
    rw [jsMerge, if_neg hle]
    exact (List.Perm.cons b ih).trans List.perm_middle.symm

theorem splitList_perm (l : List α) :
    ((splitList l).1 ++ (splitList l).2).Perm l := by
  induction l using splitList.induct with
  | case1 => simp [splitList]
  | case2 a => simp [splitList]
  | case3 a b l ih =>
    simp only [splitList]
    exact List.Perm.cons a (List.perm_middle.trans (List.Perm.cons b ih))

theorem jsMergeSort_perm (le : α → α → Bool) (l : List α) :
    (jsMergeSort le l).Perm l := by
  induction l using jsMergeSort.induct le with
  | case1 => simp [jsMergeSort]
  | case2 a => simp [jsMergeSort]
  | case3 a b l p ih1 ih2 =>
    rw [jsMergeSort]
    exact (jsMerge_perm le _ _).trans ((ih1.append ih2).trans (splitList_perm _))

theorem jsMerge_pairwise {good : α → α → Prop} {le : α → α → Bool}
    (htrans : ∀ a b c, good a b → good b c → good a c)
    (htrue : ∀ a b, le a b = true → good a b)
    (hfalse : ∀ a b, le a b = false → good b a) :
    ∀ l1 l2 : List α, l1.Pairwise good → l2.Pairwise good →
      (jsMerge le l1 l2).Pairwise good := by
  intro l1 l2
  induction l1, l2 using jsMerge.induct le with
  | case1 l => intro _ h2; simpa [jsMerge] using h2
  | case2 a l => intro h1 _; simpa [jsMerge] using h1
  | case3 a l b m hle ih =>
    intro h1 h2
    rw [jsMerge, if_pos hle]
    obtain ⟨ha, h1'⟩ := List.pairwise_cons.mp h1
    refine List.pairwise_cons.mpr ⟨?_, ih h1' h2⟩
    intro z hz
    have hz' : z ∈ l ++ b :: m := (jsMerge_perm le l (b :: m)).subset hz
    rcases List.mem_append.mp hz' with hzl | hzbm
    · exact ha z hzl
    · rcases List.mem_cons.mp hzbm with rfl | hzm
      · exact htrue a z hle
      · obtain ⟨hb, -⟩ := List.pairwise_cons.mp h2
        exact htrans a b z (htrue a b hle) (hb z hzm)
  | case4 a l b m hle ih =>
    intro h1 h2
    rw [jsMerge, if_neg hle]
    obtain ⟨hb, h2'⟩ := List.pairwise_cons.mp h2
    have hba : good b a := hfalse a b (by simpa using hle)
    refine List.pairwise_cons.mpr ⟨?_, ih h1 h2'⟩
    intro z hz
    have hz' : z ∈ (a :: l) ++ m := (jsMerge_perm le (a :: l) m).subset hz
    rcases List.mem_append.mp hz' with hzal | hzm
    · rcases List.mem_cons.mp hzal with rfl | hzl
      · exact hba
      · obtain ⟨ha, -⟩ := List.pairwise_cons.mp h1
        exact htrans b a z hba (ha z hzl)
    · exact hb z hzm

theorem jsMergeSort_pairwise {good : α → α → Prop} {le : α → α → Bool}
    (htrans : ∀ a b c, good a b → good b c → good a c)
    (htrue : ∀ a b, le a b = true → good a b)
    (hfalse : ∀ a b, le a b = false → good b a)
    (l : List α) : (jsMergeSort le l).Pairwise good := by
  induction l using jsMergeSort.induct le with
  | case1 => simp [jsMergeSort]
  | case2 a => simp [jsMergeSort]
  | case3 a b l p ih1 ih2 =>
    rw [jsMergeSort]
    exact jsMerge_pairwise htrans htrue hfalse _ _ ih1 ih2

theorem deadlineOrder_trans (a b c : Task) :
    deadlineOrder a b → deadlineOrder b c → deadlineOrder a c := by
  rintro ⟨h1, h2⟩ ⟨h3, h4⟩
  refine ⟨fun ha => h3 (h1 ha), fun da dc hda hdc => ?_⟩
  cases hb : b.deadline with
  | none => rw [h3 hb] at hdc; exact nomatch hdc
  | some db => exact le_trans (h2 da db hda hb) (h4 db dc hb hdc)

theorem deadline_le_true (a b : Task) :
    decide (taskCompare "deadline" a b ≤ 0) = true → deadlineOrder a b := by
  intro h
  rw [decide_eq_true_eq] at h
  rcases ha : a.deadline with _ | da
  · exfalso
    simp [taskCompare, ha] at h
  · rcases hb : b.deadline with _ | db
    · refine ⟨fun hcontra => ?_, fun da' db' hda hdb => ?_⟩
      · rw [ha] at hcontra; exact nomatch hcontra
      · rw [hb] at hdb; exact nomatch hdb
    · simp only [taskCompare] at h
      rw [ha, hb] at h
      simp at h
      refine ⟨fun hcontra => ?_, fun da' db' hda hdb => ?_⟩
      · rw [ha] at hcontra; exact nomatch hcontra
      · rw [ha] at hda; rw [hb] at hdb
        have e1 : da = da' := Option.some.inj hda
        have e2 : db = db' := Option.some.inj hdb
        omega

theorem deadline_le_false (a b : Task) :
    decide (taskCompare "deadline" a b ≤ 0) = false → deadlineOrder b a := by
  intro h
  rw [decide_eq_false_iff_not] at h
  rcases ha : a.deadline with _ | da
  · rcases hb : b.deadline with _ | db
    · refine ⟨fun _ => ha, fun da' db' hda hdb => ?_⟩
      rw [hb] at hda; exact nomatch hda
    · refine ⟨fun hcontra => ?_, fun da' db' hda hdb => ?_⟩
      · rw [hb] at hcontra; exact nomatch hcontra
      · rw [ha] at hdb; exact nomatch hdb
  · rcases hb : b.deadline with _ | db
    · exfalso
      apply h
      simp [taskCompare, ha, hb]
    · have hled : db ≤ da := by
        by_contra hcon
        apply h
        simp only [taskCompare]
        rw [ha, hb]
        simp
        omega
      refine ⟨fun hcontra => ?_, fun db' da' hdb hda => ?_⟩
      · rw [hb] at hcontra; exact nomatch hcontra
      · rw [hb] at hdb; rw [ha] at hda
        have e1 : db = db' := Option.some.inj hdb
        have e2 : da = da' := Option.some.inj hda
        omega

/-- C5: sorting by deadline produces a list where every no-deadline task
follows every dated task and dated tasks are in non-decreasing deadline
order; the output is a permutation of the (unchanged) filtered input, the
input collection never being mutated. -/
theorem deadline_sort_spec (tasks : List Task) (filterStatus : String) :
    (filteredAndSortedTasks tasks filterStatus "deadline").Pairwise deadlineOrder ∧
    (filteredAndSortedTasks tasks filterStatus "deadline").Perm
      (if filterStatus ≠ "all" then tasks.filter (fun task => task.status = filterStatus)
       else tasks) := by
  constructor
  · exact jsMergeSort_pairwise deadlineOrder_trans deadline_le_true deadline_le_false _
  · exact jsMergeSort_perm _ _

/-- C7: `validateTask` on a 2-character title yields exactly a title error;
on a repetitive task with an empty day selection it yields exactly a
repetitionDays error; on a title-only valid task it yields the empty error
mapping. -/
theorem validateTask_examples :
    validateTask 0 { title := some "ab" } =
      [("title", VALIDATION_MESSAGES.TITLE_MIN_LENGTH)] ∧
    validateTask 0
        { title := some "Buy milk", isRepetitive := some true, repetitionDays := some [] } =
      [("repetitionDays", VALIDATION_MESSAGES.REPETITION_DAYS_REQUIRED)] ∧
    validateTask 0 { title := some "Buy milk" } = [] := by
  refine ⟨?_, ?_, ?_⟩ <;> decide

/-- C8: for every construction-time `initialTime` and any sequence of timer
events, `reset` returns the elapsed value to `initialTime` and the state to
idle; and in the scenario start / five one-second ticks / pause the elapsed
value is 5, with `reset` returning it to the pre-start baseline. -/
theorem timer_reset_spec :
    (∀ (initialTime : Int) (events : List TimerEvent),
      timerStep initialTime (runTimer initialTime events) .reset =
        useTimerInit initialTime) ∧
    (runTimer 0 [.start, .tick, .tick, .tick, .tick, .tick, .pause]).time = 5 ∧
    timerStep 0 (runTimer 0 [.start, .tick, .tick, .tick, .tick, .tick, .pause]) .reset =
      useTimerInit 0 :=
  ⟨fun _ _ => rfl, by decide, rfl⟩

/-- C10: for every collection and every `ADD_TASK` payload — even one
already carrying id, status, elapsedTime or timestamp fields — the appended
task carries the freshly generated id, status `active`, elapsedTime `0` and
equal creation/update timestamps, and the pre-existing tasks are unchanged
in their positions. -/
theorem addTask_spec (env : Env) (state : List Task) (p : Payload) :
    ∃ newTask : Task,
      taskReducer env state { type := TASK_ACTIONS.ADD_TASK, payload := p } =
        .ok (state ++ [newTask]) ∧
      newTask.id = generateId env ∧
      newTask.status = TASK_STATUS.ACTIVE ∧
      newTask.elapsedTime = 0 ∧
      newTask.createdAt = env.now ∧
      newTask.updatedAt = env.now ∧
      newTask.createdAt = newTask.updatedAt :=
  ⟨_, taskReducer_add env state p, rfl, rfl, rfl, rfl, rfl, rfl⟩

theorem count_addToBucket_other (m : Int → List Task) (k' : Int) (t' t : Task)
    (hne : t' ≠ t) (k : Int) :
    List.count t (addToBucket m k' t' k) = List.count t (m k) := by
  unfold addToBucket
  by_cases hk : k = k'
  · subst hk
    have hbeq : (t' == t) = false := beq_eq_false_iff_ne.mpr hne
    simp [List.count_append, List.count_singleton, hbeq]
  · simp [hk]

theorem count_addToBucketNoDup_other (m : Int → List Task) (k' : Int) (t' t : Task)
    (hne : t' ≠ t) (k : Int) :
    List.count t (addToBucketNoDup m k' t' k) = List.count t (m k) := by
  unfold addToBucketNoDup
  by_cases hmem : t' ∈ m k'
  · simp [hmem]
  · simp only [hmem, if_false, if_neg (fun h => hmem h)]
    exact count_addToBucket_other m k' t' t hne k

theorem count_rangeFold_other (ds : List Int) (m : Int → List Task) (t' t : Task)
    (hne : t' ≠ t) (k : Int) :
    List.count t ((ds.foldl (fun acc d => addToBucketNoDup acc d t') m) k) =
      List.count t (m k) := by
  induction ds generalizing m with
  | nil => rfl
  | cons d ds ih =>
    rw [List.foldl_cons, ih]
    exact count_addToBucketNoDup_other m d t' t hne k

theorem count_calFold_other (days : List Int) (m : Int → List Task) (t' t : Task)
    (hne : t' ≠ t) (k : Int) :
    List.count t ((days.foldl
      (fun acc day =>
        if getDayName day ∈ t'.repetitionDays then addToBucketNoDup acc day t'
        else acc) m) k) = List.count t (m k) := by
  induction days generalizing m with
  | nil => rfl
  | cons d days ih =>
    rw [List.foldl_cons, ih]
    by_cases hday : getDayName d ∈ t'.repetitionDays
    · rw [if_pos hday]
      exact count_addToBucketNoDup_other m d t' t hne k
    · rw [if_neg hday]

theorem startDateRule_count_other (m : Int → List Task) (t' t : Task)
    (hne : t' ≠ t) (k : Int) :
    List.count t (startDateRule t' m k) = List.count t (m k) := by
  unfold startDateRule
  cases t'.startDate with
  | none => rfl
  | some sd => exact count_addToBucket_other m sd t' t hne k

theorem dateRangeRule_count_other (m : Int → List Task) (t' t : Task)
    (hne : t' ≠ t) (k : Int) :
    List.count t (dateRangeRule t' m k) = List.count t (m k) := by
  unfold dateRangeRule
  by_cases htype : t'.taskType = TASK_TYPE.DATE_RANGE
  · rw [if_pos htype]
    cases t'.endDate with
    | none => rfl
    | some ed => exact count_rangeFold_other _ m t' t hne k
  · rw [if_neg htype]

theorem repetitionRule_count_other (days : List Int) (m : Int → List Task)
    (t' t : Task) (hne : t' ≠ t) (k : Int) :
    List.count t (repetitionRule days t' m k) = List.count t (m k) := by
  unfold repetitionRule
  by_cases hrep : t'.isRepetitive ∧ 0 < t'.repetitionDays.length
  · rw [if_pos hrep]
    exact count_calFold_other days m t' t hne k
  · rw [if_neg hrep]

theorem processTask_count_other (days : List Int) (m : Int → List Task)
    (t' t : Task) (hne : t' ≠ t) (k : Int) :
    List.count t (processTask days m t' k) = List.count t (m k) := by
  unfold processTask
  rw [repetitionRule_count_other days _ t' t hne k,
    dateRangeRule_count_other _ t' t hne k,
    startDateRule_count_other m t' t hne k]

theorem count_addToBucketNoDup_self (m : Int → List Task) (k' : Int) (t : Task)
    (hb : ∀ j, List.count t (m j) ≤ 1) (k : Int) :
    List.count t (addToBucketNoDup m k' t k) ≤ 1 := by
  unfold addToBucketNoDup
  by_cases hmem : t ∈ m k'
  · simp only [if_pos hmem]
    exact hb k
  · simp only [if_neg hmem]
    unfold addToBucket
    by_cases hk : k = k'
    · subst hk
      have h0 : List.count t (m k) = 0 := List.count_eq_zero.mpr hmem
      simp [List.count_append, h0, List.count_singleton]
    · simp only [if_neg hk]
      exact hb k

theorem count_rangeFold_self (ds : List Int) (m : Int → List Task) (t : Task)
    (hb : ∀ j, List.count t (m j) ≤ 1) (k : Int) :
    List.count t ((ds.foldl (fun acc d => addToBucketNoDup acc d t) m) k) ≤ 1 := by
  induction ds generalizing m with
  | nil => exact hb k
  | cons d ds ih =>
    rw [List.foldl_cons]
    exact ih _ (count_addToBucketNoDup_self m d t hb)

theorem count_calFold_self (days : List Int) (m : Int → List Task) (t : Task)
    (hb : ∀ j, List.count t (m j) ≤ 1) (k : Int) :
    List.count t ((days.foldl
      (fun acc day =>
        if getDayName day ∈ t.repetitionDays then addToBucketNoDup acc day t
        else acc) m) k) ≤ 1 := by
  induction days generalizing m with
  | nil => exact hb k
  | cons d days ih =>
    rw [List.foldl_cons]
    by_cases hday : getDayName d ∈ t.repetitionDays
    · rw [if_pos hday]
      exact ih _ (count_addToBucketNoDup_self m d t hb)
    · rw [if_neg hday]
      exact ih _ hb

theorem startDateRule_count_self (m : Int → List Task) (t : Task)
    (hz : ∀ j, List.count t (m j) = 0) (k : Int) :
    List.count t (startDateRule t m k) ≤ 1 := by
  unfold startDateRule
  cases t.startDate with
  | none => rw [hz k]; exact Nat.zero_le 1
  | some sd =>
    unfold addToBucket
    by_cases hk : k = sd
    · subst hk
      simp [List.count_append, hz k, List.count_singleton]
    · simp only [if_neg hk]
      rw [hz k]
      exact Nat.zero_le 1

theorem dateRangeRule_count_bound (m : Int → List Task) (t : Task)
    (hb : ∀ j, List.count t (m j) ≤ 1) (k : Int) :
    List.count t (dateRangeRule t m k) ≤ 1 := by
  unfold dateRangeRule
  by_cases htype : t.taskType = TASK_TYPE.DATE_RANGE
  · rw [if_pos htype]
    cases t.endDate with
    | none => exact hb k
    | some ed => exact count_rangeFold_self _ m t hb k
  · rw [if_neg htype]
    exact hb k

theorem repetitionRule_count_bound (days : List Int) (m : Int → List Task)
    (t : Task) (hb : ∀ j, List.count t (m j) ≤ 1) (k : Int) :
    List.count t (repetitionRule days t m k) ≤ 1 := by
  unfold repetitionRule
  by_cases hrep : t.isRepetitive ∧ 0 < t.repetitionDays.length
  · rw [if_pos hrep]
    exact count_calFold_self days m t hb k
  · rw [if_neg hrep]
    exact hb k

theorem processTask_count_self (days : List Int) (m : Int → List Task) (t : Task)
    (hz : ∀ j, List.count t (m j) = 0) (k : Int) :
    List.count t (processTask days m t k) ≤ 1 := by
  unfold processTask
  exact repetitionRule_count_bound days _ t
    (dateRangeRule_count_bound _ t (startDateRule_count_self m t hz)) k

theorem tasksFold_count_other (l : List Task) (days : List Int) (t : Task)
    (ht : t ∉ l) (m : Int → List Task) (k : Int) :
    List.count t ((l.foldl (processTask days) m) k) = List.count t (m k) := by
  induction l generalizing m with
  | nil => rfl
  | cons t' l ih =>
    have hne : t' ≠ t := fun h => ht (h ▸ List.mem_cons_self t' l)
    rw [List.foldl_cons, ih (fun hmem => ht (List.mem_cons_of_mem _ hmem))]
    exact processTask_count_other days m t' t hne k

/-- C6: in the calendar bucketing projection of a collection (whose ids are
unique, as the data model requires), every task occurs at most once in any
single day's bucket, even when several contribution rules match. -/
theorem calendar_bucket_unique (tasks : List Task) (calendarDays : List Int)
    (hids : (tasks.map Task.id).Nodup) (k : Int) (t : Task) :
    List.count t (tasksByDate tasks calendarDays k) ≤ 1 := by
  have hnd : tasks.Nodup := List.Nodup.of_map Task.id hids
  by_cases ht : t ∈ tasks
  · obtain ⟨l1, l2, rfl⟩ := List.append_of_mem ht
    rw [List.nodup_append] at hnd
    obtain ⟨hnd1, hnd2, hdisj⟩ := hnd
    have htl2 : t ∉ l2 := (List.nodup_cons.mp hnd2).1
    have htl1 : t ∉ l1 := fun hmem => hdisj hmem (List.mem_cons_self t l2)
    unfold tasksByDate
    rw [List.foldl_append, List.foldl_cons]
    have hzero : ∀ j,
        List.count t ((l1.foldl (processTask calendarDays) (fun _ => [])) j) = 0 := by
      intro j
      rw [tasksFold_count_other l1 calendarDays t htl1]
      rfl
    rw [tasksFold_count_other l2 calendarDays t htl2]
    exact processTask_count_self calendarDays _ t hzero k
  · unfold tasksByDate
    rw [tasksFold_count_other tasks calendarDays t ht]
    exact Nat.zero_le 1

theorem calendar_bucket_unique_witness :
    ([sampleCalendarTask].map Task.id).Nodup ∧
    List.count sampleCalendarTask
      (tasksByDate [sampleCalendarTask] [0, 1, 2, 3, 4, 5, 6] 3) ≤ 1 :=
  ⟨by decide,
   calendar_bucket_unique [sampleCalendarTask] [0, 1, 2, 3, 4, 5, 6] (by decide)
     3 sampleCalendarTask⟩

end TaskApp
